import Mathlib

/-!
Shallow embedding of the concurrency/state core of the swaynyaad status bar
(src/state.rs, src/app.rs, src/listeners/{sound,upower,time}.rs, src/bar.rs)
together with theorems settling the specification claims about it.

Conventions: Rust `i64` is modelled as `Int` (with truncating division
`Int.tdiv`, as in Rust; a division whose divisor is zero panics in Rust and is
modelled as `Option.none`/`Except.error`); Rust `f64` values are modelled as
`ℚ` (every concrete value the claims touch is exactly representable and every
operation performed on them here is exact); fallible Rust code returning
`eyre::Result` is modelled as `Except String` carrying the source's error
message.
-/

namespace Swaynyaad

/-! ## src/state.rs: Pulse -/

/-- `PulseKind` (src/state.rs:24-28). -/
inductive PulseKind
  | sink
  | source
deriving DecidableEq

/-- `Pulse` (src/state.rs:30-35): the computed audio record. -/
structure Pulse where
  muted : Bool
  volume : Int
  icon : String
deriving DecidableEq

/-- One mixer channel of a `Selem`, as observed through the side (playback
for Sink, capture for Source) that `Pulse::parse` selects with `kind`:
`volume` is the result of `get_playback_volume`/`get_capture_volume`
(`none` models `Err`), `switch` the result of the corresponding
`get_*_switch` call. -/
structure SelemChannel where
  volume : Option Int
  switch : Option Int
deriving DecidableEq

/-- A mixer element as read by `Pulse::parse` (src/state.rs:38-82), already
restricted to the playback/capture side selected by `kind`: `hasVolume` is
`has_*_volume`, `(volumeLow, volumeHigh)` is `get_*_volume_range`,
`hasSwitch` is `has_*_switch`, and `channels` holds the per-channel readings
for `SelemChannelId::all()` in iteration order. -/
structure Selem where
  hasVolume : Bool
  volumeLow : Int
  volumeHigh : Int
  hasSwitch : Bool
  channels : List SelemChannel
deriving DecidableEq

/-- The channel loop of `Pulse::parse` (src/state.rs:58-78). The state is
`(globally_muted, channel_count, acc_volume)`; a channel whose volume read
failed is skipped (`continue`), otherwise the mute flag is and-ed in, the
count incremented, and the in-range contribution accumulated when the
channel is not individually muted. -/
def parse_channels (volumeLow : Int) :
    List SelemChannel → Bool × Nat × Int → Bool × Nat × Int
  | [], st => st
  | ch :: rest, st =>
    match ch.volume with
    | none => parse_channels volumeLow rest st
    | some curVolume =>
      let curMuted := ch.switch == some 0
      parse_channels volumeLow rest
        (st.1 && curMuted, st.2.1 + 1,
          if curMuted then st.2.2 else st.2.2 + (curVolume - volumeLow))

/-- `Pulse::parse` (src/state.rs:38-82). An element with no volume control
reports `(0, muted)`. Otherwise the final line divides
`100 * acc_volume` by the range width and then by the channel count with
Rust's truncating `i64` division; either divisor being zero is a Rust panic,
modelled as `none`. -/
def Pulse.parse (selem : Selem) : Option (Int × Bool) :=
  if !selem.hasVolume then some (0, true)
  else
    let st := parse_channels selem.volumeLow selem.channels (selem.hasSwitch, 0, 0)
    let rangeWidth := selem.volumeHigh - selem.volumeLow
    if rangeWidth = 0 then none
    else if st.2.1 = 0 then none
    else some (((100 * st.2.2).tdiv rangeWidth).tdiv (st.2.1 : Int), st.1)

/-- `Pulse::make` (src/state.rs:84-108): parse, then derive the icon name
from the kind and the volume/mute values (the `0` arm is matched before the
`muted` guard, and both of the two last arms yield `"high"`). -/
def Pulse.make (selem : Selem) (kind : PulseKind) : Option Pulse :=
  match Pulse.parse selem with
  | none => none
  | some (volume, muted) =>
    let kindName := match kind with
      | PulseKind.sink => "audio"
      | PulseKind.source => "mic"
    let levelName :=
      if volume = 0 then "muted"
      else if muted then "muted"
      else if volume ≤ 25 then "low"
      else if volume ≤ 50 then "medium"
      else "high"
    some { icon := kindName ++ "-volume-" ++ levelName, muted := muted, volume := volume }

/-- Number of channels of `selem` whose volume read succeeds; this is the
value `channel_count` holds after the loop of `Pulse::parse`. -/
def readable_channel_count (selem : Selem) : Nat :=
  (selem.channels.filter (fun ch => ch.volume.isSome)).length

/-- One iteration of the drain loop of `listeners/sound.rs::start`
(src/listeners/sound.rs:74-86): a computed record equal to the stored slot
is dropped (`continue`), otherwise the slot is replaced and
`AppInput::Pulse(kind)` is emitted. Returns the new slot value and whether a
notification was emitted. -/
def sound_drain_step (slot pulse : Pulse) : Pulse × Bool :=
  if slot = pulse then (slot, false) else (pulse, true)

/-! ## src/state.rs: Power, and src/bar.rs critical handling -/

/-- `Power` (src/state.rs:111-117); `level` is an `f64` in the source. -/
structure Power where
  present : Bool
  charging : Bool
  level : ℚ
  icon : String
deriving DecidableEq

/-- `Power::is_critical` (src/state.rs:120-122). -/
def Power.is_critical (p : Power) : Bool :=
  p.present && !p.charging && decide (p.level < 10)

/-- `CriticalInput` (src/critical.rs:11-15). -/
inductive CriticalInput
  | Hide
  | Show (message : String)
deriving DecidableEq

/-- The message the bar's `AppInput::Power` arm sends to the critical-alert
component (src/bar.rs:261-270): `Show` exactly when `Power::is_critical`,
`Hide` otherwise. -/
def power_critical_input (power : Power) : CriticalInput :=
  if power.is_critical then CriticalInput.Show "Connect power NOW!" else CriticalInput.Hide

/-! ## src/bar.rs: the notification enumeration

`AppInput` (src/bar.rs:19-30). `Outputs` carries the compositor's full
output-name set (a `HashSet<String>`, modelled as a list of names whose
iteration order is arbitrary and which holds no duplicates). -/

/-- `AppInput` (src/bar.rs:19-30). -/
inductive AppInput
  | Outputs (names : List String)
  | Layout
  | LayoutList
  | Time
  | Workspaces
  | Sysinfo
  | Pulse (kind : PulseKind)
  | Power
  | PowerChanged
deriving DecidableEq

/-! ## src/listeners/upower.rs -/

/-- `upower_glib::DeviceState` values distinguished by the listener. -/
inductive DeviceState
  | unknown
  | charging
  | discharging
  | empty
  | fullyCharged
  | pendingCharge
  | pendingDischarge
deriving DecidableEq

/-- `upower_glib::DeviceKind` values distinguished by the listener (every
kind other than `LinePower` falls into the same catch-all arm). -/
inductive DeviceKind
  | unknown
  | linePower
  | battery
  | ups
deriving DecidableEq

/-- A snapshot of the UPower display device as read by `upower_state`
(src/listeners/upower.rs:18-27): `is_present()`, `percentage()` (an `f64`),
the state enum and the kind enum. -/
structure Device where
  present : Bool
  percentage : ℚ
  state : DeviceState
  kind : DeviceKind
deriving DecidableEq

/-- The `charging` derivation of `upower_state`
(src/listeners/upower.rs:22-25): `PendingCharge`, `Charging` and
`FullyCharged` count as charging. -/
def charging_of (state : DeviceState) : Bool :=
  match state with
  | DeviceState.pendingCharge => true
  | DeviceState.charging => true
  | DeviceState.fullyCharged => true
  | _ => false

/-- The level bucket `(level / 10.).floor() * 10.` of
src/listeners/upower.rs:38, rendered as Rust's `f64` `Display` renders the
always-integral result (no fractional part). -/
def level_bucket (level : ℚ) : String :=
  toString ((level / 10).floor * 10)

/-- The icon derivation of `upower_state` (src/listeners/upower.rs:28-43):
`LinePower` devices always get the AC-adapter icon; otherwise the state
selects a fixed icon or, for the (dis)charge states, a level-bucketed name
with a `-charging` suffix exactly when `charging` holds. -/
def upower_icon (kind : DeviceKind) (state : DeviceState) (level : ℚ)
    (charging : Bool) : String :=
  match kind with
  | DeviceKind.linePower => "ac-adapter-symbolic"
  | _ =>
    match state with
    | DeviceState.empty => "battery-empty-symbolic"
    | DeviceState.fullyCharged => "battery-full-charged-symbolic"
    | DeviceState.pendingCharge =>
        "battery-level-" ++ level_bucket level ++
          (if charging then "-charging" else "") ++ "-symbolic"
    | DeviceState.charging =>
        "battery-level-" ++ level_bucket level ++
          (if charging then "-charging" else "") ++ "-symbolic"
    | DeviceState.pendingDischarge =>
        "battery-level-" ++ level_bucket level ++
          (if charging then "-charging" else "") ++ "-symbolic"
    | DeviceState.discharging =>
        "battery-level-" ++ level_bucket level ++
          (if charging then "-charging" else "") ++ "-symbolic"
    | _ => "battery-missing-symbolic"

/-- `upower_state` (src/listeners/upower.rs:10-68) as a pure function of the
stored power record and the device snapshot: derives `charging` and `icon`,
replaces `state.power` wholesale, always sends `AppInput::Power`, and
additionally sends `AppInput::PowerChanged` exactly when the new record's
`present` or `charging` differs from the stored one. Returns the new record
and the emitted notifications in emission order. -/
def upower_state (old : Power) (device : Device) : Power × List AppInput :=
  let charging := charging_of device.state
  let icon := upower_icon device.kind device.state device.percentage charging
  let newPower : Power :=
    { present := device.present, charging := charging,
      level := device.percentage, icon := icon }
  let changed := (old.present != newPower.present) || (old.charging != newPower.charging)
  (newPower, AppInput.Power :: (if changed then [AppInput.PowerChanged] else []))

/-- The display-device resolution step of `listeners/upower.rs::start`
(src/listeners/upower.rs:77):
`client.display_device().ok_or_eyre("no display device")?` — a service that
reports no display device makes listener startup fail with this error. -/
def resolve_display_device (device : Option Device) : Except String Device :=
  match device with
  | none => Except.error "no display device"
  | some d => Except.ok d

/-! ## src/listeners/time.rs: the meminfo parsing loop -/

/-- Processing of one `/proc/meminfo` line by `listeners/time.rs::start`
(src/listeners/time.rs:35-50). The line is given as its whitespace-split
fields; the state is `(total_ram, available_ram, count_fields)`. A line with
three fields updates the state when its name matches (a badly numbered value
is the `bad total_ram`/`bad available_ram` error), a line with two fields is
ignored, and any other shape is the `bail!` error. -/
def meminfo_line (entries : List String) (totalRam availableRam countFields : Nat) :
    Except String (Nat × Nat × Nat) :=
  match entries with
  | [name, value, _unit] =>
    if name = "MemTotal:" then
      match value.toNat? with
      | none => Except.error "bad total_ram"
      | some v => Except.ok (v, availableRam, countFields - 1)
    else if name = "MemAvailable:" then
      match value.toNat? with
      | none => Except.error "bad available_ram"
      | some v => Except.ok (totalRam, v, countFields - 1)
    else Except.ok (totalRam, availableRam, countFields)
  | [_name, _value] => Except.ok (totalRam, availableRam, countFields)
  | _ => Except.error "/proc/meminfo has unexpected format"

/-- The `while let Some(line) = ...` loop of `listeners/time.rs::start`
(src/listeners/time.rs:34-55): process each line in order, and stop with the
accumulated `(total_ram, available_ram)` once `count_fields` reaches zero
(checked after each line) or the file is exhausted. -/
def meminfo_loop :
    List (List String) → Nat → Nat → Nat → Except String (Nat × Nat)
  | [], totalRam, availableRam, _ => Except.ok (totalRam, availableRam)
  | entries :: rest, totalRam, availableRam, countFields =>
    match meminfo_line entries totalRam availableRam countFields with
    | Except.error e => Except.error e
    | Except.ok (t, a, c) =>
      if c = 0 then Except.ok (t, a) else meminfo_loop rest t a c

/-- The whole meminfo pass of one timer tick (src/listeners/time.rs:31-55):
`total_ram` starts at 1, `available_ram` at 0, `count_fields` at 2. -/
def parse_meminfo (lines : List (List String)) : Except String (Nat × Nat) :=
  meminfo_loop lines 1 0 2

/-! ## src/app.rs: the output reconciler

`adjust_windows` owns the Active Output Set, a `HashMap<String,
Controller<AppModel>>`. The map is modelled as an association list with
distinct keys; a subscriber is identified by the GDK monitor it was created
from together with the creation step (`AppModel::create` binds the monitor
and the shared state handle; the handle is the same for every subscriber).
The compositor's output-name set (a `HashSet`) is a duplicate-free list in
arbitrary order; the GDK monitor list is a list of monitors, each exposing
an optional connector name. -/

/-- A `gdk::Monitor` as observed by `adjust_windows`: its `connector()`
(an `Option<GString>`) and an abstract handle distinguishing monitors. -/
structure Monitor (α : Type) where
  connector : Option String
  handle : α
deriving DecidableEq

/-- Whether the Active Output Set already holds key `output`
(`windows.contains_key(output)`). -/
def window_mem {α : Type} (windows : List (String × Monitor α)) (output : String) : Bool :=
  windows.any (fun w => w.1 == output)

/-- The `for added in ...` insertion loop of `adjust_windows`
(src/app.rs:62-84): for each added name, find the first monitor whose
connector equals the name; if none matches, warn and skip the name;
otherwise launch a subscriber bound to that monitor and insert it, where
`ensure!(windows.insert(..).is_none(), "nonexistent element exists")` makes
inserting over an existing key a fatal error. -/
def insert_loop {α : Type} (monitors : List (Monitor α)) :
    List (String × Monitor α) → List String → Except String (List (String × Monitor α))
  | windows, [] => Except.ok windows
  | windows, added :: rest =>
    match monitors.find? (fun monitor => monitor.connector == some added) with
    | none => insert_loop monitors windows rest
    | some monitor =>
      if window_mem windows added then Except.error "nonexistent element exists"
      else insert_loop monitors (windows ++ [(added, monitor)]) rest

/-- `adjust_windows` (src/app.rs:44-86): retain only the windows whose
output name is still reported, resolve the GDK monitor list (`display =
none` models `gdk::Display::default()` returning `None`, a fatal error),
compute the added names as the reported names not present in the retained
map (`new_outputs.iter().filter(|output| !windows.contains_key(output))`,
collected before the loop runs), and run the insertion loop. -/
def adjust_windows {α : Type} (windows : List (String × Monitor α))
    (newOutputs : List String) (display : Option (List (Monitor α))) :
    Except String (List (String × Monitor α)) :=
  let retained := windows.filter (fun w => newOutputs.any (fun o => o == w.1))
  match display with
  | none => Except.error "Failed to get default display"
  | some monitors =>
    insert_loop monitors retained
      (newOutputs.filter (fun output => !window_mem retained output))

/-- The dispatcher's handling of a sequence of `AppInput::Outputs`
notifications (src/app.rs:108-120, the `adjust_windows` arm): each
notification is processed fully before the next, and any error aborts the
loop. Each trace element carries the notification's output-name set and the
GDK monitor list resolved while processing it. -/
def process_outputs {α : Type} :
    List (List String × List (Monitor α)) → List (String × Monitor α) →
      Except String (List (String × Monitor α))
  | [], windows => Except.ok windows
  | (newOutputs, monitors) :: rest, windows =>
    match adjust_windows windows newOutputs (some monitors) with
    | Except.error e => Except.error e
    | Except.ok windows' => process_outputs rest windows'

/-- The key set of the Active Output Set. -/
def window_keys {α : Type} (windows : List (String × Monitor α)) : Finset String :=
  (windows.map Prod.fst).toFinset

/-- The set of output names that resolve against a GDK monitor list: those
equal to some monitor's connector. -/
def connector_names {α : Type} (monitors : List (Monitor α)) : Finset String :=
  (monitors.filterMap Monitor.connector).toFinset

/-- The key-set effect of one `adjust_windows` call: keys still reported are
kept, and a reported key not yet present is added exactly when it resolves
against the monitor list. -/
def step_keys (keys N R : Finset String) : Finset String :=
  keys ∩ N ∪ (N \ keys) ∩ R

/-- Folding `step_keys` over a trace of (output-name set, resolvable-name
set) pairs. -/
def run_keys (keys : Finset String) : List (Finset String × Finset String) → Finset String
  | [] => keys
  | (N, R) :: rest => run_keys (step_keys keys N R) rest

/-- Formalises the spec's "resolved against the physical-monitor list at the
time each name was processed": walking the trace forward from `keys`,
report `some b` where `b` tells whether `n` resolved at the *last* step that
processed `n` as an addition (that is, `n` was reported while absent from
the Active Output Set), and `none` when no step processed `n`. -/
def resolved_at_last_processing (keys : Finset String) :
    List (Finset String × Finset String) → String → Option Bool
  | [], _ => none
  | (N, R) :: rest, n =>
    match resolved_at_last_processing (step_keys keys N R) rest n with
    | some b => some b
    | none => if n ∈ N ∧ n ∉ keys then some (decide (n ∈ R)) else none

/-- The abstraction of a concrete dispatcher trace to (output-name set,
resolvable-name set) pairs. -/
def abstract_trace {α : Type} (trace : List (List String × List (Monitor α))) :
    List (Finset String × Finset String) :=
  trace.map (fun p => (p.1.toFinset, connector_names p.2))

/-- The output-name set of the most recent notification of a trace
(`∅` for the empty trace). -/
def last_set (trace : List (Finset String × Finset String)) : Finset String :=
  (trace.getLast?.map Prod.fst).getD ∅

/-! ## Theorems: Pulse (C4, C5, C9) -/

/-- The channel count computed by the loop of `Pulse::parse` is the number
of channels whose volume read succeeded. -/
theorem parse_channels_count (volumeLow : Int) :
    ∀ (channels : List SelemChannel) (st : Bool × Nat × Int),
      (parse_channels volumeLow channels st).2.1 =
        st.2.1 + (channels.filter (fun ch => ch.volume.isSome)).length := by
  intro channels
  induction channels with
  | nil => intro st; simp [parse_channels]
  | cons ch rest ih =>
    intro st
    cases hv : ch.volume with
    | none => simp [parse_channels, hv, ih]
    | some v =>
      simp only [parse_channels, hv, ih, List.filter_cons, Option.isSome_some]
      simp
      omega

/-- C5: for a device with two channels, range [0, 65536], channel values
[32768, 65536] and neither channel muted, `Pulse::parse` computes the volume
75 (and the slot is not globally muted). -/
theorem pulse_volume_example_c5 :
    Pulse.parse
        { hasVolume := true, volumeLow := 0, volumeHigh := 65536, hasSwitch := true,
          channels := [{ volume := some 32768, switch := some 1 },
                       { volume := some 65536, switch := some 1 }] } =
      some (75, false) := by
  rfl

/-- C4: the Pulse computation is idempotent and the drain task deduplicates:
computing `Pulse::make` twice from the same raw mixer element state gives
identical results, one drain iteration replaces the slot and emits exactly
when the computed record differs from the stored one, and feeding the same
record to the drain a second time neither changes the slot nor emits. -/
theorem pulse_dedup_c4 (selem : Selem) (kind : PulseKind) (slot pulse : Pulse) :
    Pulse.make selem kind = Pulse.make selem kind ∧
    sound_drain_step slot pulse = (if pulse = slot then slot else pulse, decide (pulse ≠ slot)) ∧
    sound_drain_step (sound_drain_step slot pulse).1 pulse =
      ((sound_drain_step slot pulse).1, false) := by
  refine ⟨rfl, ?_, ?_⟩ <;> by_cases h : slot = pulse <;>
    simp [sound_drain_step, h, eq_comm]

/-- Counterexample to C9: a mixer element state that has a volume control
but no readable channel makes the final line of `Pulse::parse` divide by a
zero channel count (a Rust panic, modelled as `none`), so the computation
does not "never divide by zero". -/
theorem pulse_div_zero_c9_counterexample :
    Selem.hasVolume
        { hasVolume := true, volumeLow := 0, volumeHigh := 65536, hasSwitch := true,
          channels := [{ volume := none, switch := none }] } = true ∧
    Pulse.parse
        { hasVolume := true, volumeLow := 0, volumeHigh := 65536, hasSwitch := true,
          channels := [{ volume := none, switch := none }] } = none := by
  exact ⟨rfl, rfl⟩

/-- C9 (amended): for every mixer element state with a volume control
present, `Pulse::parse` divides by the range width and the readable-channel
count with no guard, and the division divides by zero exactly when the range
is degenerate (`volume_high - volume_low = 0`) or no channel's volume could
be read. -/
theorem pulse_div_zero_c9 (selem : Selem) (h : selem.hasVolume = true) :
    Pulse.parse selem = none ↔
      (selem.volumeHigh - selem.volumeLow = 0 ∨ readable_channel_count selem = 0) := by
  have hcount := parse_channels_count selem.volumeLow selem.channels
    (selem.hasSwitch, 0, 0)
  by_cases h1 : selem.volumeHigh - selem.volumeLow = 0
  · simp [Pulse.parse, h, h1]
  · by_cases h2 : readable_channel_count selem = 0
    · have hc : (parse_channels selem.volumeLow selem.channels
          (selem.hasSwitch, 0, 0)).2.1 = 0 := by
        rw [hcount]; simpa [readable_channel_count] using h2
      simp [Pulse.parse, h, h1, h2]
      exact hc
    · have hc : (parse_channels selem.volumeLow selem.channels
          (selem.hasSwitch, 0, 0)).2.1 ≠ 0 := by
        rw [hcount]; simpa [readable_channel_count] using h2
      simp [Pulse.parse, h, h1, h2]
      exact hc

/-- Witness for the amended C9 at a concrete input. -/
theorem pulse_div_zero_c9_witness :
    Selem.hasVolume
        { hasVolume := true, volumeLow := 0, volumeHigh := 0, hasSwitch := true,
          channels := [] } = true ∧
    (Pulse.parse
        { hasVolume := true, volumeLow := 0, volumeHigh := 0, hasSwitch := true,
          channels := [] } = none ↔
      ((0 : Int) - 0 = 0 ∨
        readable_channel_count
          { hasVolume := true, volumeLow := 0, volumeHigh := 0, hasSwitch := true,
            channels := [] } = 0)) :=
  ⟨rfl, pulse_div_zero_c9 _ rfl⟩

/-! ## Theorems: Power (C3, C6, C7, C10) -/

/-- C10: `Power::is_critical` holds exactly when the battery is present,
not charging, and strictly below 10 percent, and the bar's plain `Power`
notification handler shows the critical alert exactly when it holds and
hides it otherwise. -/
theorem power_critical_c10 (p : Power) :
    (p.is_critical = true ↔ (p.present = true ∧ p.charging = false ∧ p.level < 10)) ∧
    (power_critical_input p = CriticalInput.Show "Connect power NOW!" ↔
      p.is_critical = true) ∧
    (power_critical_input p = CriticalInput.Hide ↔ p.is_critical = false) := by
  refine ⟨?_, ?_, ?_⟩
  · simp [Power.is_critical, and_assoc]
  · by_cases h : p.is_critical <;> simp [power_critical_input, h]
  · by_cases h : p.is_critical <;> simp [power_critical_input, h]

/-- C7: a `LinePower` device always gets the AC-adapter icon regardless of
state, and a non-`LinePower` device in `Discharging` state (hence not
charging) at level 47 gets `battery-level-40-symbolic` (level floored to the
nearest 10, no `-charging` suffix). -/
theorem power_icon_c7 :
    (∀ (state : DeviceState) (level : ℚ) (charging : Bool),
        upower_icon DeviceKind.linePower state level charging = "ac-adapter-symbolic") ∧
    charging_of DeviceState.discharging = false ∧
    upower_icon DeviceKind.battery DeviceState.discharging 47
        (charging_of DeviceState.discharging) = "battery-level-40-symbolic" := by
  refine ⟨?_, rfl, ?_⟩
  · intro state level charging; rfl
  · have hfloor : ((47 : ℚ) / 10).floor = 4 := by
      have h : ((47 : ℚ) / 10).floor = ⌊(47 : ℚ) / 10⌋ := rfl
      rw [h]; norm_num [Int.floor_eq_iff]
    simp only [upower_icon, charging_of, level_bucket, hfloor]
    rfl

/-- C6: on every wake, `upower_state` emits a plain `Power` notification
first, and additionally emits `PowerChanged` if and only if the new record's
`present` or `charging` field differs from the stored one (`level`/`icon`
differences alone do not trigger it). -/
theorem power_changed_c6 (old : Power) (device : Device) :
    (upower_state old device).2.head? = some AppInput.Power ∧
    AppInput.Power ∈ (upower_state old device).2 ∧
    (AppInput.PowerChanged ∈ (upower_state old device).2 ↔
      (old.present ≠ (upower_state old device).1.present ∨
        old.charging ≠ (upower_state old device).1.charging)) := by
  refine ⟨rfl, List.mem_cons_self _ _, ?_⟩
  by_cases hp : old.present = (charging_of device.state, device.present).2
  · by_cases hc : old.charging = charging_of device.state
    · simp [upower_state, hp, hc]
    · simp [upower_state, hp, hc]
  · by_cases hc : old.charging = charging_of device.state
    · simp [upower_state, hp, hc]
    · simp [upower_state, hp, hc]

/-- Counterexample to C3: when the power-management service reports no
display device, listener startup resolves the device with
`ok_or_eyre("no display device")?` and fails with that error; it does not
continue with a `present = false` record. -/
theorem no_display_device_c3_counterexample :
    resolve_display_device none = Except.error "no display device" := by
  rfl

/-- C3 (amended): a service reporting no display device makes Power Listener
startup fail with the error `no display device`; the recoverable zero-value
path is a *device that exists but reports no battery present*, which
`upower_state` stores as a `present = false` record while the listener keeps
running (a `Power` notification is still emitted). -/
theorem no_display_device_c3 (old : Power) (device : Device)
    (h : device.present = false) :
    resolve_display_device none = Except.error "no display device" ∧
    (upower_state old device).1.present = false ∧
    AppInput.Power ∈ (upower_state old device).2 := by
  refine ⟨rfl, ?_, List.mem_cons_self _ _⟩
  simp [upower_state, h]

/-- Witness for the amended C3 at a concrete input. -/
theorem no_display_device_c3_witness :
    Device.present ⟨false, 0, DeviceState.unknown, DeviceKind.unknown⟩ = false ∧
    (resolve_display_device none = Except.error "no display device" ∧
      (upower_state ⟨false, false, 0, ""⟩
          ⟨false, 0, DeviceState.unknown, DeviceKind.unknown⟩).1.present = false ∧
      AppInput.Power ∈ (upower_state ⟨false, false, 0, ""⟩
          ⟨false, 0, DeviceState.unknown, DeviceKind.unknown⟩).2) :=
  ⟨rfl, no_display_device_c3 _ _ rfl⟩

/-! ## Theorems: meminfo parsing (C8) -/

/-- C8: whenever the Timer Listener's meminfo loop examines a line that
splits into neither 2 nor 3 whitespace-separated fields, it aborts with the
parse error rather than skipping the line. -/
theorem meminfo_malformed_c8 (entries : List String) (rest : List (List String))
    (totalRam availableRam countFields : Nat)
    (h2 : entries.length ≠ 2) (h3 : entries.length ≠ 3) :
    meminfo_loop (entries :: rest) totalRam availableRam countFields =
      Except.error "/proc/meminfo has unexpected format" := by
  have hline : meminfo_line entries totalRam availableRam countFields =
      Except.error "/proc/meminfo has unexpected format" := by
    match entries with
    | [] => rfl
    | [_] => rfl
    | [_, _] => simp at h2
    | [_, _, _] => simp at h3
    | _ :: _ :: _ :: _ :: _ => rfl
  simp [meminfo_loop, hline]

/-- Witness for C8 at a concrete input. -/
theorem meminfo_malformed_c8_witness :
    (["MemTotal"] : List String).length ≠ 2 ∧
    (["MemTotal"] : List String).length ≠ 3 ∧
    meminfo_loop [["MemTotal"]] 1 0 2 =
      Except.error "/proc/meminfo has unexpected format" :=
  ⟨by decide, by decide,
    meminfo_malformed_c8 _ _ _ _ _ (by decide) (by decide)⟩

/-! ## Theorems: the output reconciler (C1, C2)

The lemmas below characterise `adjust_windows` and `process_outputs`:
the reconciler never returns an error (in particular the duplicate-insert
`ensure!` never fires, because already-present names are filtered out before
the insertion loop), entries whose name is still reported are retained
unchanged, and the key set evolves by `step_keys`. -/

/-- `window_mem` tests key membership. -/
theorem window_mem_iff {α : Type} (windows : List (String × Monitor α)) (o : String) :
    window_mem windows o = true ↔ o ∈ windows.map Prod.fst := by
  simp [window_mem, List.any_eq_true, beq_iff_eq, List.mem_map]

/-- Filtering an association list by a predicate on the key filters the key
list. -/
theorem map_fst_filter_key {α : Type} (windows : List (String × Monitor α))
    (q : String → Bool) :
    (windows.filter (fun w => q w.1)).map Prod.fst = (windows.map Prod.fst).filter q := by
  induction windows with
  | nil => rfl
  | cons w rest ih =>
    cases hq : q w.1 <;> simp [List.filter_cons, hq, ih]

/-- The insertion loop, run on names absent from the map: it never errors
and appends exactly the resolvable names, each bound to the first monitor
whose connector matches. -/
theorem insert_loop_eq {α : Type} (monitors : List (Monitor α)) :
    ∀ (added : List String) (windows : List (String × Monitor α)),
      added.Nodup → (∀ a ∈ added, window_mem windows a = false) →
      insert_loop monitors windows added =
        Except.ok (windows ++ added.filterMap (fun a =>
          (monitors.find? (fun m => m.connector == some a)).map (fun m => (a, m)))) := by
  intro added
  induction added with
  | nil => intro windows _ _; simp [insert_loop]
  | cons a rest ih =>
    intro windows hnd hmem
    have hnd' : rest.Nodup := hnd.of_cons
    have hna : a ∉ rest := (List.nodup_cons.mp hnd).1
    cases hf : monitors.find? (fun m => m.connector == some a) with
    | none =>
      simp only [insert_loop, hf, List.filterMap_cons, Option.map_none']
      exact ih windows hnd' (fun b hb => hmem b (List.mem_cons_of_mem _ hb))
    | some m =>
      have hwm : window_mem windows a = false := hmem a (List.mem_cons_self _ _)
      have hmem' : ∀ b ∈ rest, window_mem (windows ++ [(a, m)]) b = false := by
        intro b hb
        have hb1 : window_mem windows b = false := hmem b (List.mem_cons_of_mem _ hb)
        have hb2 : b ≠ a := fun h => hna (h ▸ hb)
        simp only [window_mem, List.any_append, Bool.or_eq_false_iff]
        refine ⟨hb1, ?_⟩
        simp [Ne.symm hb2]
      simp only [insert_loop, hf, hwm, Bool.false_eq_true, if_false,
        List.filterMap_cons, Option.map_some']
      rw [ih (windows ++ [(a, m)]) hnd' hmem']
      simp

/-- The keys appended by the insertion loop are the added names that
resolve. -/
theorem map_fst_inserted {α : Type} (monitors : List (Monitor α)) (added : List String) :
    (added.filterMap (fun a =>
        (monitors.find? (fun m => m.connector == some a)).map (fun m => (a, m)))).map Prod.fst
      = added.filter (fun a => (monitors.find? (fun m => m.connector == some a)).isSome) := by
  induction added with
  | nil => rfl
  | cons a rest ih =>
    cases hf : monitors.find? (fun m => m.connector == some a) with
    | none =>
      simp only [List.filterMap_cons, hf, Option.map_none', List.filter_cons,
        Option.isSome_none, Bool.false_eq_true, if_false]
      exact ih
    | some m =>
      simp only [List.filterMap_cons, hf, Option.map_some', List.filter_cons,
        Option.isSome_some, if_true, List.map_cons]
      rw [ih]

/-- A name resolves against the monitor list exactly when it is one of the
connector names. -/
theorem find_connector_isSome {α : Type} (monitors : List (Monitor α)) (a : String) :
    (monitors.find? (fun m => m.connector == some a)).isSome = true ↔
      a ∈ connector_names monitors := by
  simp [List.find?_isSome, connector_names, List.mem_toFinset, List.mem_filterMap]

/-- `adjust_windows` with a resolvable display never errors: it returns a
map with distinct keys whose key set evolves by `step_keys`, and retains
unchanged every entry whose name is still reported. -/
theorem adjust_windows_ok {α : Type} (windows : List (String × Monitor α))
    (N : List String) (monitors : List (Monitor α))
    (hkeys : (windows.map Prod.fst).Nodup) (hN : N.Nodup) :
    ∃ windows', adjust_windows windows N (some monitors) = Except.ok windows' ∧
      (windows'.map Prod.fst).Nodup ∧
      window_keys windows' =
        step_keys (window_keys windows) N.toFinset (connector_names monitors) ∧
      (∀ p ∈ windows, p.1 ∈ N → p ∈ windows') := by
  have hkret : (windows.filter (fun w => N.any (fun o => o == w.1))).map Prod.fst =
      (windows.map Prod.fst).filter (fun k => N.any (fun o => o == k)) := by
    exact map_fst_filter_key windows (fun k => N.any (fun o => o == k))
  have hkretnd : ((windows.filter (fun w => N.any (fun o => o == w.1))).map Prod.fst).Nodup := by
    rw [hkret]; exact hkeys.filter _
  have haddnd : (N.filter
      (fun output => !window_mem (windows.filter (fun w => N.any (fun o => o == w.1))) output)).Nodup :=
    hN.filter _
  have haddmem : ∀ a ∈ N.filter
      (fun output => !window_mem (windows.filter (fun w => N.any (fun o => o == w.1))) output),
      window_mem (windows.filter (fun w => N.any (fun o => o == w.1))) a = false := by
    intro a ha
    have h2 := (List.mem_filter.mp ha).2
    simpa using h2
  have hwmret : ∀ n, window_mem (windows.filter (fun w => N.any (fun o => o == w.1))) n = true ↔
      (n ∈ windows.map Prod.fst ∧ n ∈ N) := by
    intro n
    rw [window_mem_iff, hkret]
    simp [List.mem_filter, List.any_eq_true, beq_iff_eq]
  have hstep : adjust_windows windows N (some monitors) =
      insert_loop monitors (windows.filter (fun w => N.any (fun o => o == w.1)))
        (N.filter
          (fun output => !window_mem (windows.filter (fun w => N.any (fun o => o == w.1))) output)) :=
    rfl
  rw [insert_loop_eq monitors _ _ haddnd haddmem] at hstep
  refine ⟨_, hstep, ?_, ?_, ?_⟩
  · rw [List.map_append, map_fst_inserted]
    refine List.Nodup.append hkretnd (haddnd.filter _) ?_
    intro b hb1 hb2
    have hbmem : window_mem (windows.filter (fun w => N.any (fun o => o == w.1))) b = true := by
      rw [window_mem_iff]; exact hb1
    have hbadded := List.mem_of_mem_filter hb2
    have := haddmem b hbadded
    rw [this] at hbmem
    exact Bool.false_ne_true hbmem
  · ext n
    simp only [window_keys, List.mem_toFinset, List.map_append, List.mem_append,
      map_fst_inserted, List.mem_filter, step_keys, Finset.mem_union, Finset.mem_inter,
      Finset.mem_sdiff, find_connector_isSome]
    have h1 : n ∈ (windows.filter (fun w => N.any (fun o => o == w.1))).map Prod.fst ↔
        (n ∈ windows.map Prod.fst ∧ n ∈ N) := by
      rw [← window_mem_iff, hwmret]
    have h2 : ∀ (b : Bool), (!b) = true ↔ b = false := by intro b; cases b <;> simp
    rw [h1]
    constructor
    · rintro (⟨hw, hn⟩ | ⟨⟨hn, hm⟩, hr⟩)
      · exact Or.inl ⟨hw, hn⟩
      · have hm' : ¬(n ∈ List.map Prod.fst windows ∧ n ∈ N) := by
          intro hc
          rw [← hwmret n] at hc
          rw [hc] at hm
          simp at hm
        exact Or.inr ⟨⟨hn, fun hw => hm' ⟨hw, hn⟩⟩, hr⟩
    · rintro (⟨hw, hn⟩ | ⟨⟨hn, hw⟩, hr⟩)
      · exact Or.inl ⟨hw, hn⟩
      · refine Or.inr ⟨⟨hn, ?_⟩, hr⟩
        cases hwm : window_mem (List.filter (fun w => N.any fun o => o == w.1) windows) n with
        | false => rfl
        | true => exact absurd ((hwmret n).mp hwm).1 hw
  · intro p hp hpn
    refine List.mem_append_left _ (List.mem_filter.mpr ⟨hp, ?_⟩)
    simp [List.any_eq_true, beq_iff_eq]
    exact hpn

/-- The dispatcher's output-notification loop never errors, keeps the
Active Output Set's keys distinct, and makes the key set evolve by
`step_keys` along the abstracted trace. -/
theorem process_outputs_ok {α : Type} :
    ∀ (trace : List (List String × List (Monitor α))) (windows : List (String × Monitor α)),
      (windows.map Prod.fst).Nodup → (∀ p ∈ trace, p.1.Nodup) →
      ∃ windows', process_outputs trace windows = Except.ok windows' ∧
        (windows'.map Prod.fst).Nodup ∧
        window_keys windows' = run_keys (window_keys windows) (abstract_trace trace) := by
  intro trace
  induction trace with
  | nil => intro windows hw _; exact ⟨windows, rfl, hw, rfl⟩
  | cons p rest ih =>
    intro windows hw hN
    obtain ⟨w1, he1, hnd1, hk1, _⟩ :=
      adjust_windows_ok windows p.1 p.2 hw (hN p (List.mem_cons_self _ _))
    obtain ⟨w2, he2, hnd2, hk2⟩ := ih w1 hnd1 (fun q hq => hN q (List.mem_cons_of_mem _ hq))
    refine ⟨w2, ?_, hnd2, ?_⟩
    · rw [show process_outputs (p :: rest) windows =
          (match adjust_windows windows p.1 (some p.2) with
            | Except.error e => Except.error e
            | Except.ok windows' => process_outputs rest windows') from rfl, he1]
      exact he2
    · rw [hk2, hk1]
      rfl

/-- `last_set` ignores the head of a trace with at least two elements. -/
theorem last_set_cons (p : Finset String × Finset String)
    (rest : List (Finset String × Finset String)) (h : rest ≠ []) :
    last_set (p :: rest) = last_set rest := by
  cases rest with
  | nil => exact absurd rfl h
  | cons q t => simp [last_set, List.getLast?_cons_cons]

/-- If no step of a nonempty trace processed `n` as an addition and `n` is
in the most recent notification, then `n` was in the key set all along. -/
theorem resolved_none_mem :
    ∀ (trace : List (Finset String × Finset String)) (keys : Finset String) (n : String),
      trace ≠ [] → resolved_at_last_processing keys trace n = none →
      n ∈ last_set trace → n ∈ keys := by
  intro trace
  induction trace with
  | nil => intro keys n h; exact absurd rfl h
  | cons p rest ih =>
    rcases p with ⟨N, R⟩
    intro keys n _ hr hl
    by_cases hrest : rest = []
    · subst hrest
      simp only [resolved_at_last_processing] at hr
      simp only [last_set, List.getLast?_singleton, Option.map_some', Option.getD_some] at hl
      by_cases hc : n ∈ N ∧ n ∉ keys
      · rw [if_pos hc] at hr; cases hr
      · by_cases hk : n ∈ keys
        · exact hk
        · exact absurd ⟨hl, hk⟩ hc
    · rw [last_set_cons _ _ hrest] at hl
      simp only [resolved_at_last_processing] at hr
      cases hrr : resolved_at_last_processing (step_keys keys N R) rest n with
      | some b => rw [hrr] at hr; cases hr
      | none =>
        rw [hrr] at hr
        have hk' : n ∈ step_keys keys N R := ih _ n hrest hrr hl
        simp only [step_keys, Finset.mem_union, Finset.mem_inter, Finset.mem_sdiff] at hk'
        rcases hk' with ⟨hk, _⟩ | ⟨⟨hn, hk⟩, _⟩
        · exact hk
        · rw [if_pos ⟨hn, hk⟩] at hr; cases hr

/-- Membership in the folded key set, characterised by the most recent
notification and the resolution status at the last processing of the name:
`n` ends up in the key set iff it is in the most recent notification and
either its last processing resolved it, or it was never processed and was
in the key set from the start. -/
theorem mem_run_keys :
    ∀ (trace : List (Finset String × Finset String)) (keys : Finset String) (n : String),
      trace ≠ [] →
      (n ∈ run_keys keys trace ↔
        n ∈ last_set trace ∧
          (resolved_at_last_processing keys trace n = some true ∨
            (resolved_at_last_processing keys trace n = none ∧ n ∈ keys))) := by
  intro trace
  induction trace with
  | nil => intro keys n h; exact absurd rfl h
  | cons p rest ih =>
    rcases p with ⟨N, R⟩
    intro keys n _
    by_cases hrest : rest = []
    · subst hrest
      simp only [run_keys, resolved_at_last_processing, last_set,
        List.getLast?_singleton, Option.map_some', Option.getD_some]
      by_cases h1 : n ∈ N
      · by_cases hk : n ∈ keys
        · have hc : ¬(n ∈ N ∧ n ∉ keys) := fun hc => hc.2 hk
          rw [if_neg hc]
          simp [step_keys, h1, hk]
        · rw [if_pos ⟨h1, hk⟩]
          by_cases h3 : n ∈ R <;> simp [step_keys, h1, hk, h3]
      · have hc : ¬(n ∈ N ∧ n ∉ keys) := fun hc => h1 hc.1
        rw [if_neg hc]
        simp [step_keys, h1]
    · rw [show run_keys keys ((N, R) :: rest) = run_keys (step_keys keys N R) rest from rfl,
        ih (step_keys keys N R) n hrest, last_set_cons _ _ hrest]
      cases hrr : resolved_at_last_processing (step_keys keys N R) rest n with
      | some b =>
        have hfull : resolved_at_last_processing keys ((N, R) :: rest) n = some b := by
          show (match resolved_at_last_processing (step_keys keys N R) rest n with
                | some b => some b
                | none => if n ∈ N ∧ n ∉ keys then some (decide (n ∈ R)) else none) = some b
          rw [hrr]
        rw [hfull]
        simp
      | none =>
        have hfull : resolved_at_last_processing keys ((N, R) :: rest) n =
            (if n ∈ N ∧ n ∉ keys then some (decide (n ∈ R)) else none) := by
          show (match resolved_at_last_processing (step_keys keys N R) rest n with
                | some b => some b
                | none => if n ∈ N ∧ n ∉ keys then some (decide (n ∈ R)) else none) = _
          rw [hrr]
        rw [hfull]
        constructor
        · rintro ⟨hls, hor⟩
          refine ⟨hls, ?_⟩
          have hk' : n ∈ step_keys keys N R := by
            rcases hor with h | h
            · cases h
            · exact h.2
          simp only [step_keys, Finset.mem_union, Finset.mem_inter, Finset.mem_sdiff] at hk'
          rcases hk' with ⟨hk, _⟩ | ⟨⟨hn, hknot⟩, hr⟩
          · exact Or.inr ⟨by rw [if_neg (fun hc => hc.2 hk)], hk⟩
          · left
            rw [if_pos ⟨hn, hknot⟩]
            simp [hr]
        · rintro ⟨hls, hor⟩
          refine ⟨hls, Or.inr ⟨rfl, ?_⟩⟩
          rcases hor with hsome | ⟨-, hk⟩
          · by_cases hc : n ∈ N ∧ n ∉ keys
            · rw [if_pos hc] at hsome
              have hnR : n ∈ R := by simpa using Option.some.inj hsome
              simp only [step_keys, Finset.mem_union, Finset.mem_inter, Finset.mem_sdiff]
              exact Or.inr ⟨⟨hc.1, hc.2⟩, hnR⟩
            · rw [if_neg hc] at hsome; cases hsome
          · exact resolved_none_mem rest (step_keys keys N R) n hrest hrr hls

/-- The most recent notification of the abstracted trace is the most recent
concrete notification's name set. -/
theorem last_set_abstract {α : Type} (trace : List (List String × List (Monitor α)))
    (h : trace ≠ []) :
    last_set (abstract_trace trace) = (trace.getLast h).1.toFinset := by
  rw [last_set, abstract_trace, List.getLast?_map, List.getLast?_eq_getLast trace h]
  rfl

/-- C1: after the dispatcher processes any nonempty sequence of output-set
notifications (each carrying a duplicate-free name set), the Active Output
Set's key set equals the most recent notification's contents intersected
with the names that resolved against the GDK monitor list at the time each
name was last processed as an addition. -/
theorem active_output_set_c1 {α : Type} (trace : List (List String × List (Monitor α)))
    (htrace : trace ≠ []) (hN : ∀ p ∈ trace, p.1.Nodup) (n : String) :
    ∃ windows, process_outputs trace [] = Except.ok windows ∧
      (n ∈ window_keys windows ↔
        n ∈ (trace.getLast htrace).1 ∧
          resolved_at_last_processing ∅ (abstract_trace trace) n = some true) := by
  obtain ⟨windows, he, _, hk⟩ := process_outputs_ok trace [] (by simp) hN
  refine ⟨windows, he, ?_⟩
  have habs : abstract_trace trace ≠ [] := by
    simpa [abstract_trace] using htrace
  rw [hk, show window_keys ([] : List (String × Monitor α)) = ∅ from rfl,
    mem_run_keys _ _ _ habs, last_set_abstract trace htrace]
  simp [List.mem_toFinset]

/-- Witness for C1 at a concrete one-notification trace. -/
theorem active_output_set_c1_witness :
    ∃ windows,
      process_outputs [(["eDP-1"], [(⟨some "eDP-1", 0⟩ : Monitor Nat)])] [] =
        Except.ok windows ∧
      ("eDP-1" ∈ window_keys windows ↔
        "eDP-1" ∈ (["eDP-1"] : List String) ∧
          resolved_at_last_processing ∅
            (abstract_trace [(["eDP-1"], [(⟨some "eDP-1", 0⟩ : Monitor Nat)])]) "eDP-1" =
            some true) :=
  active_output_set_c1 [(["eDP-1"], [(⟨some "eDP-1", 0⟩ : Monitor Nat)])]
    (by simp) (by simp) "eDP-1"

/-- Counterexample to C2: feeding the dispatcher two output-set
notifications that both contain `"eDP-1"` (with the monitor resolvable both
times and no intervening removal) does *not* produce an error: the second
notification leaves the single existing entry in place, because a name
already present is filtered out before the insertion loop ever runs. -/
theorem duplicate_addition_c2_counterexample :
    process_outputs
        [(["eDP-1"], [(⟨some "eDP-1", 0⟩ : Monitor Nat)]),
         (["eDP-1"], [(⟨some "eDP-1", 0⟩ : Monitor Nat)])] [] =
      Except.ok [("eDP-1", (⟨some "eDP-1", 0⟩ : Monitor Nat))] := by
  rfl

/-- C2 (amended): processing an output-set notification that contains a name
already present in the Active Output Set does not reach the duplicate-insert
fatal check at all: already-present names are filtered out before the
insertion loop, so the reconciler succeeds and the existing subscriber entry
is retained unchanged — neither a fatal invariant violation nor a silent
overwrite. (The `ensure!`-guarded fatal path exists in the code but is
unreachable from duplicate notifications.) -/
theorem duplicate_addition_c2 {α : Type} (windows : List (String × Monitor α))
    (N : List String) (monitors : List (Monitor α))
    (hkeys : (windows.map Prod.fst).Nodup) (hN : N.Nodup) :
    ∃ windows', adjust_windows windows N (some monitors) = Except.ok windows' ∧
      (∀ p ∈ windows, p.1 ∈ N → p ∈ windows') := by
  obtain ⟨windows', he, _, _, hret⟩ := adjust_windows_ok windows N monitors hkeys hN
  exact ⟨windows', he, hret⟩

/-- Witness for the amended C2: a map already holding `"eDP-1"` fed a
notification still naming `"eDP-1"`. -/
theorem duplicate_addition_c2_witness :
    (([("eDP-1", (⟨some "eDP-1", 0⟩ : Monitor Nat))].map Prod.fst).Nodup ∧
      (["eDP-1"] : List String).Nodup) ∧
    (∃ windows', adjust_windows [("eDP-1", (⟨some "eDP-1", 0⟩ : Monitor Nat))] ["eDP-1"]
        (some [(⟨some "eDP-1", 0⟩ : Monitor Nat)]) = Except.ok windows' ∧
      (∀ p ∈ [("eDP-1", (⟨some "eDP-1", 0⟩ : Monitor Nat))], p.1 ∈ (["eDP-1"] : List String) →
        p ∈ windows')) :=
  ⟨⟨by simp, by simp⟩,
    duplicate_addition_c2 [("eDP-1", (⟨some "eDP-1", 0⟩ : Monitor Nat))] ["eDP-1"]
      [(⟨some "eDP-1", 0⟩ : Monitor Nat)] (by simp) (by simp)⟩

end Swaynyaad
